import Mathlib

/-!
Verification of the go-blaze B2 client library against its specification.

The Go source is shallowly embedded: pure data flow becomes Lean functions,
the HTTP exchange is modelled by passing the response (status code, headers,
body) as an explicit argument, and JSON (de)serialisation — an external
collaborator per the spec — is modelled by decode oracles
(`String → Option α`) passed to the functions that call `json.Unmarshal`.
Go's `error` values are modelled by the `GoError` inductive; a Go function
returning `(T, error)` becomes a Lean function into `Except GoError T`.
-/

namespace GoBlaze

/-- `Err` (src/b2.go): the structured B2 API error triple decoded from a
non-success response body. -/
structure B2Err where
  code : String
  message : String
  status : Int
deriving Repr, DecidableEq

/-- The kinds of Go `error` values the embedded functions can produce:
transport failures (`ReadAll` / `io.Copy` errors), JSON decode failures,
the structured API error `*Err`, local configuration errors
(`errors.New` before any network call), `strconv.ParseInt` failures,
`url.QueryUnescape` failures and `url.Parse` failures. -/
inductive GoError where
  | transport
  | decodeFail
  | apiErr (e : B2Err)
  | config (msg : String)
  | parseIntErr
  | unescapeErr
  | urlParseErr
deriving Repr, DecidableEq

/-- `GoodStatus` (src/b2.go): the single success HTTP status code. -/
def GoodStatus : Nat := 200

/-- `readResp` (src/b2.go lines 84-106): reads the whole response body
(`readAll = none` models an `ioutil.ReadAll` failure), then decodes it into
the caller-specified output type on status `GoodStatus`, and into the
structured `Err` otherwise, returning that `Err` as the error. `dec` and
`decErr` are the `json.Unmarshal` oracles for the two target types. -/
def readResp (α : Type) (statusCode : Nat) (readAll : Option String)
    (dec : String → Option α) (decErr : String → Option B2Err) :
    Except GoError α :=
  match readAll with
  | none => .error .transport
  | some data =>
    if statusCode = GoodStatus then
      match dec data with
      | none => .error .decodeFail
      | some o => .ok o
    else
      match decErr data with
      | none => .error .decodeFail
      | some e => .error (.apiErr e)

/-- C2: for every response handed to `readResp`, status 200 decodes the body
into the caller-specified output type and returns it without error, and any
other status decodes the body into the structured `{code, message, status}`
triple and returns that API error, a value distinct from the transport and
decode failure errors. -/
theorem c2_readResp_envelope (α : Type) (statusCode : Nat) (data : String)
    (dec : String → Option α) (decErr : String → Option B2Err)
    (o : α) (e : B2Err) :
    (statusCode = 200 → dec data = some o →
      readResp α statusCode (some data) dec decErr = .ok o) ∧
    (statusCode ≠ 200 → decErr data = some e →
      readResp α statusCode (some data) dec decErr = .error (.apiErr e) ∧
      GoError.apiErr e ≠ .transport ∧ GoError.apiErr e ≠ .decodeFail) := by
  constructor
  · intro h200 hdec
    simp [readResp, GoodStatus, h200, hdec]
  · intro hne hdec
    refine ⟨?_, by simp, by simp⟩
    simp [readResp, GoodStatus, hne, hdec]

/-- Witness for C2 at concrete inputs: a 200 response decodes into the
output value, a 503 response turns into the structured API error. -/
theorem c2_readResp_envelope_witness :
    readResp Nat 200 (some "5") (fun _ => some 5) (fun _ => none) = .ok 5 ∧
    readResp Nat 503 (some "e") (fun _ => none)
      (fun _ => some ⟨"bad", "busy", 503⟩) =
      .error (.apiErr ⟨"bad", "busy", 503⟩) := by
  constructor
  · exact (c2_readResp_envelope Nat 200 "5" (fun _ => some 5) (fun _ => none)
      5 ⟨"bad", "busy", 503⟩).1 rfl rfl
  · exact ((c2_readResp_envelope Nat 503 "e" (fun _ => none)
      (fun _ => some ⟨"bad", "busy", 503⟩) 0 ⟨"bad", "busy", 503⟩).2
      (by decide) rfl).1

/-- `Upload` (src/b2.go): the bucket-scoped upload lease — upload URL plus
its own auth token. -/
structure Upload where
  bucketID : String
  uploadURL : String
  authToken : String
deriving Repr, DecidableEq

/-- `FileName` (src/b2.go): one listing entry, a single version of a name. -/
structure FileName where
  id : String
  name : String
  action : String
  size : Int
  timestamp : Int
deriving Repr, DecidableEq

/-- `FileInfo` (src/b2.go / src/unnamed/part_000): full file metadata.
`info` models the Go map `Info map[string]string`; `none` is Go's nil map
(the zero value left by `&FileInfo{...}` when JSON supplies no value),
`some entries` a non-nil map as an association list. The `conn` back-pointer
of the part_000 draft carries no data and is omitted. -/
structure FileInfo where
  accountID : String
  id : String
  name : String
  bucketID : String
  length : Int
  sha1 : String
  fType : String
  info : Option (List (String × String))
deriving Repr, DecidableEq

/-- `Bucket` (src/unnamed/part_001): the bucket handle. The unexported
`upload` field is the lazily cached upload lease of the bucket-level
convenience wrapper; the `conn` back-pointer is a never-reassigned pointer
to the session and carries no mutable data, so it is omitted. -/
structure Bucket where
  accountID : String
  id : String
  name : String
  bType : String
  upload : Option Upload
deriving Repr, DecidableEq

/-- The anonymous response struct of `ListFileVersions`
(src/b2.go lines 499-503): `files`, `nextFileId`, `nextFileName`. -/
structure ListVersionsBody where
  files : List FileName
  nextFileID : String
  nextFileName : String

/-- `B2.ListFileVersions` (src/b2.go lines 472-510, src/unnamed/part_001
lines 490-532): sends the request, decodes the response through `readResp`
and returns the triple exactly as the source does:
`return list.Files, list.NextFileID, list.NextFileName, nil`. -/
def listFileVersions (statusCode : Nat) (readAll : Option String)
    (dec : String → Option ListVersionsBody)
    (decErr : String → Option B2Err) :
    Except GoError (List FileName × String × String) :=
  match readResp ListVersionsBody statusCode readAll dec decErr with
  | .error e => .error e
  | .ok l => .ok (l.files, l.nextFileID, l.nextFileName)

/-- C1 counterexample: a successful response whose decoded cursors are
`nextFileId = "id1"` and `nextFileName = "name1"` makes `listFileVersions`
return `"id1"` as the second component of the result tuple — the claims
says the second component is the next-file-name cursor, but it is the
next-file-id cursor. -/
theorem c1_counterexample :
    listFileVersions 200 (some "")
      (fun _ => some ⟨[], "id1", "name1"⟩) (fun _ => none) =
      .ok ([], "id1", "name1") ∧ ("id1" : String) ≠ "name1" := by
  constructor
  · rfl
  · decide

/-- C1 as amended: for every successful call, `listFileVersions` returns the
tuple in the order (sequence of FileName entries, nextFileId, nextFileName):
the second component is the next-file-id cursor and the third the
next-file-name cursor decoded from the response. -/
theorem c1_tuple_order (statusCode : Nat) (readAll : Option String)
    (dec : String → Option ListVersionsBody)
    (decErr : String → Option B2Err) (body : ListVersionsBody)
    (h : readResp ListVersionsBody statusCode readAll dec decErr = .ok body) :
    listFileVersions statusCode readAll dec decErr =
      .ok (body.files, body.nextFileID, body.nextFileName) := by
  simp [listFileVersions, h]

/-- Witness for C1 (amended) at a concrete successful response. -/
theorem c1_tuple_order_witness :
    listFileVersions 200 (some "")
      (fun _ => some ⟨[], "nextId", "nextName"⟩) (fun _ => none) =
      .ok ([], "nextId", "nextName") :=
  c1_tuple_order 200 (some "")
    (fun _ => some ⟨[], "nextId", "nextName"⟩) (fun _ => none)
    ⟨[], "nextId", "nextName"⟩ rfl

/-- `B2.UpdateBucket` (src/unnamed/part_001 lines 349-378): body-encoded
request whose response is decoded through `readResp` into a fresh `Bucket`
(the decoded bucket's lazy `upload` cache is the zero value, nil). -/
def updateBucket (statusCode : Nat) (readAll : Option String)
    (dec : String → Option Bucket) (decErr : String → Option B2Err) :
    Except GoError Bucket :=
  readResp Bucket statusCode readAll dec decErr

/-- `Bucket.Update` (src/unnamed/part_001 lines 25-37): calls
`conn.UpdateBucket(b.ID, bucketType)`; on error returns it with the handle
untouched, on success assigns all four exported fields from the response.
The result is the updated handle state paired with the returned error. -/
def bucketUpdate (b : Bucket) (statusCode : Nat) (readAll : Option String)
    (dec : String → Option Bucket) (decErr : String → Option B2Err) :
    Bucket × Option GoError :=
  match updateBucket statusCode readAll dec decErr with
  | .error e => (b, some e)
  | .ok nb =>
    ({ accountID := nb.accountID, id := nb.id, name := nb.name,
       bType := nb.bType, upload := b.upload }, none)

/-- C9: on success `Bucket.Update` overwrites all four fields of the handle
together from the service's response (the cached lease is untouched); on any
failure none of the handle's fields is modified — never partially applied. -/
theorem c9_bucket_update_frame (b : Bucket) (statusCode : Nat)
    (readAll : Option String) (dec : String → Option Bucket)
    (decErr : String → Option B2Err) :
    (∀ nb, updateBucket statusCode readAll dec decErr = .ok nb →
      bucketUpdate b statusCode readAll dec decErr =
        ({ accountID := nb.accountID, id := nb.id, name := nb.name,
           bType := nb.bType, upload := b.upload }, none)) ∧
    (∀ e, updateBucket statusCode readAll dec decErr = .error e →
      bucketUpdate b statusCode readAll dec decErr = (b, some e)) := by
  constructor
  · intro nb h
    simp [bucketUpdate, h]
  · intro e h
    simp [bucketUpdate, h]

/-- Witness for C9 at concrete inputs: a successful update overwrites all
four fields (keeping the cached lease), a failed update leaves the handle
exactly as it was. -/
theorem c9_bucket_update_frame_witness :
    bucketUpdate ⟨"a0", "i0", "n0", "t0", none⟩ 200 (some "")
      (fun _ => some ⟨"a1", "i1", "n1", "t1", none⟩) (fun _ => none) =
      (⟨"a1", "i1", "n1", "t1", none⟩, none) ∧
    bucketUpdate ⟨"a0", "i0", "n0", "t0", none⟩ 400 (some "")
      (fun _ => none) (fun _ => some ⟨"bad", "no", 400⟩) =
      (⟨"a0", "i0", "n0", "t0", none⟩, some (.apiErr ⟨"bad", "no", 400⟩)) := by
  constructor
  · exact (c9_bucket_update_frame ⟨"a0", "i0", "n0", "t0", none⟩ 200 (some "")
      (fun _ => some ⟨"a1", "i1", "n1", "t1", none⟩) (fun _ => none)).1
      ⟨"a1", "i1", "n1", "t1", none⟩ rfl
  · exact (c9_bucket_update_frame ⟨"a0", "i0", "n0", "t0", none⟩ 400 (some "")
      (fun _ => none) (fun _ => some ⟨"bad", "no", 400⟩)).2
      (.apiErr ⟨"bad", "no", 400⟩) rfl

/-! ### Model of the Go standard library `net/url` fragment the source uses

`B2.UploadFile` and `B2.DownloadFileByName` encode the file name with
`url.Parse(fileName)` followed by `URL.String()`, and
`readHeaderFileInfo` decodes it with `url.QueryUnescape`.  The definitions
below model that fragment of Go's `net/url` (modern Go; for the schemeless
relative names appearing in every theorem below, all Go versions agree),
at character level, which coincides with Go's byte level on ASCII input —
all inputs used in the theorems are ASCII.  URLs carrying an authority
component (a `//` prefix after the query split) are outside the modelled
fragment and are mapped to `none`; no theorem below touches such an input. -/

/-- ASCII letter test (`'a' <= c && c <= 'z' || 'A' <= c && c <= 'Z'`). -/
def isAsciiAlpha (c : Char) : Bool :=
  decide ((97 ≤ c.toNat ∧ c.toNat ≤ 122) ∨ (65 ≤ c.toNat ∧ c.toNat ≤ 90))

/-- ASCII digit test. -/
def isAsciiDigit (c : Char) : Bool :=
  decide (48 ≤ c.toNat ∧ c.toNat ≤ 57)

/-- ASCII alphanumeric test. -/
def isAsciiAlphaNum (c : Char) : Bool :=
  isAsciiAlpha c || isAsciiDigit c

/-- `ishex` of net/url. -/
def isHexDig (c : Char) : Bool :=
  isAsciiDigit c ||
    decide ((97 ≤ c.toNat ∧ c.toNat ≤ 102) ∨ (65 ≤ c.toNat ∧ c.toNat ≤ 70))

/-- `unhex` of net/url: the value of a hex digit. -/
def hexVal (c : Char) : Nat :=
  if isAsciiDigit c then c.toNat - 48
  else if decide (97 ≤ c.toNat ∧ c.toNat ≤ 102) then c.toNat - 87
  else c.toNat - 55

/-- Upper-case hex digit for a value below 16 (`"0123456789ABCDEF"`). -/
def hexDigitUpper (n : Nat) : Char :=
  if n < 10 then Char.ofNat (48 + n) else Char.ofNat (55 + n)

/-- `stringContainsCTLByte` of net/url. -/
def isCTL (c : Char) : Bool :=
  c.toNat < 32 || c.toNat == 127

/-- The encoding modes of net/url the source exercises: `encodePath`,
`encodeFragment` and `encodeQueryComponent`. -/
inductive EncMode where
  | path
  | fragment
  | queryComp
deriving DecidableEq

/-- `shouldEscape` of net/url, restricted to the three modes above. -/
def shouldEscape (c : Char) (mode : EncMode) : Bool :=
  if isAsciiAlphaNum c then false
  else if c = '-' ∨ c = '_' ∨ c = '.' ∨ c = '~' then false
  else if c = '$' ∨ c = '&' ∨ c = '+' ∨ c = ',' ∨ c = '/' ∨ c = ':' ∨
          c = ';' ∨ c = '=' ∨ c = '?' ∨ c = '@' then
    match mode with
    | .path => c == '?'
    | .queryComp => true
    | .fragment => false
  else if mode = .fragment ∧ (c = '!' ∨ c = '(' ∨ c = ')' ∨ c = '*') then
    false
  else true

/-- One character of `escape` of net/url (`%XX` with upper-case hex). -/
def escapeChar (c : Char) (mode : EncMode) : List Char :=
  if shouldEscape c mode then
    ['%', hexDigitUpper (c.toNat / 16), hexDigitUpper (c.toNat % 16)]
  else [c]

/-- `escape` of net/url. -/
def escapeMode (cs : List Char) (mode : EncMode) : List Char :=
  (cs.map (escapeChar · mode)).flatten

/-- `unescape` of net/url: percent-decodes, rejecting malformed escapes;
in query-component mode `'+'` decodes to a space. -/
def unescapeMode : List Char → EncMode → Option (List Char)
  | [], _ => some []
  | '%' :: a :: b :: rest, mode =>
    if isHexDig a ∧ isHexDig b then
      match unescapeMode rest mode with
      | none => none
      | some l => some (Char.ofNat (16 * hexVal a + hexVal b) :: l)
    else none
  | ['%'], _ => none
  | ['%', _], _ => none
  | '+' :: rest, mode =>
    match unescapeMode rest mode with
    | none => none
    | some l => some ((if mode = .queryComp then ' ' else '+') :: l)
  | c :: rest, mode =>
    match unescapeMode rest mode with
    | none => none
    | some l => some (c :: l)

/-- One character of `validEncoded` of net/url. -/
def validEncChar (c : Char) (mode : EncMode) : Bool :=
  if c = '!' ∨ c = '$' ∨ c = '&' ∨ c = Char.ofNat 39 ∨ c = '(' ∨ c = ')' ∨
     c = '*' ∨ c = '+' ∨ c = ',' ∨ c = ';' ∨ c = '=' ∨ c = ':' ∨ c = '@' ∨
     c = '[' ∨ c = ']' ∨ c = '%' then true
  else ! shouldEscape c mode

/-- `validEncoded` of net/url. -/
def validEnc (cs : List Char) (mode : EncMode) : Bool :=
  cs.all (validEncChar · mode)

/-- `strings.Cut` at the first occurrence of `sep` (separator removed; the
second component is empty when `sep` does not occur, matching how the source
uses the result). -/
def cutAt (sep : Char) : List Char → (List Char × List Char)
  | [] => ([], [])
  | c :: rest =>
    if c = sep then ([], rest)
    else
      let p := cutAt sep rest
      (c :: p.1, p.2)

/-- `getScheme` of net/url: scans for a scheme prefix ending in `':'`;
`none` models the "missing protocol scheme" error; otherwise returns the
scheme (possibly empty) and the remainder. -/
def getSchemeAux (orig : List Char) (acc : List Char) :
    List Char → Option (List Char × List Char)
  | [] => some ([], orig)
  | c :: rest =>
    if isAsciiAlpha c then getSchemeAux orig (acc ++ [c]) rest
    else if isAsciiDigit c ∨ c = '+' ∨ c = '-' ∨ c = '.' then
      if acc.isEmpty then some ([], orig)
      else getSchemeAux orig (acc ++ [c]) rest
    else if c = ':' then
      if acc.isEmpty then none else some (acc, rest)
    else some ([], orig)

/-- The fields of net/url's `URL` the modelled fragment can populate
(`Opaque` is the `opq` field; host and user never arise without an
authority). `path` and `fragment` are stored decoded, `rawPath` and
`rawFragment` keep the original encoding when it differs from the
canonical re-encoding, exactly as `setPath` and `setFragment` do. -/
structure GoURL where
  scheme : List Char
  opq : List Char
  path : List Char
  rawPath : List Char
  forceQuery : Bool
  rawQuery : List Char
  fragment : List Char
  rawFragment : List Char
deriving Repr, DecidableEq

/-- The zero `URL` value. -/
def emptyURL : GoURL := ⟨[], [], [], [], false, [], [], []⟩

/-- `URL.setPath` of net/url. -/
def setPathURL (u : GoURL) (p : List Char) : Option GoURL :=
  match unescapeMode p .path with
  | none => none
  | some dp =>
    some { u with path := dp,
                  rawPath := if escapeMode dp .path = p then [] else p }

/-- `URL.setFragment` of net/url. -/
def setFragmentURL (u : GoURL) (frag : List Char) : Option GoURL :=
  match unescapeMode frag .fragment with
  | none => none
  | some f =>
    some { u with fragment := f,
                  rawFragment := if escapeMode f .fragment = frag then []
                                 else frag }

/-- `parse(rawURL, viaRequest = false)` of net/url on the pre-fragment part:
CTL check, `"*"` special case, scheme, query / force-query split, the
opaque form for a scheme followed by a rootless rest, the
colon-in-first-segment error, and path unescaping.  An authority
(`//` prefix) is outside the modelled fragment (mapped to `none`). -/
def goParseMain (u : List Char) : Option GoURL :=
  if u.any isCTL then none
  else if u = ['*'] then some { emptyURL with path := ['*'] }
  else
    match getSchemeAux u [] u with
    | none => none
    | some (scheme0, rest0) =>
      let scheme := scheme0.map Char.toLower
      let split :=
        if rest0.getLast? = some '?' ∧ ¬ rest0.dropLast.contains '?' then
          (rest0.dropLast, ([] : List Char), true)
        else
          let p := cutAt '?' rest0
          (p.1, p.2, false)
      let rest1 := split.1
      let rawQuery := split.2.1
      let forceQuery := split.2.2
      let base := { emptyURL with scheme := scheme, rawQuery := rawQuery,
                                  forceQuery := forceQuery }
      if rest1.head? ≠ some '/' then
        if scheme ≠ [] then some { base with opq := rest1 }
        else if (cutAt '/' rest1).1.contains ':' then none
        else setPathURL base rest1
      else if rest1.take 2 = ['/', '/'] ∧
              (scheme ≠ [] ∨ rest1.take 3 ≠ ['/', '/', '/']) then
        none
      else setPathURL base rest1

/-- `url.Parse` of net/url: cut the fragment off, parse the rest, then
decode the fragment. -/
def goParse (raw : List Char) : Option GoURL :=
  let p := cutAt '#' raw
  match goParseMain p.1 with
  | none => none
  | some url => if p.2 = [] then some url else setFragmentURL url p.2

/-- `URL.EscapedPath` of net/url. -/
def escapedPathURL (u : GoURL) : List Char :=
  if u.rawPath ≠ [] ∧ validEnc u.rawPath .path ∧
     unescapeMode u.rawPath .path = some u.path then u.rawPath
  else if u.path = ['*'] then ['*']
  else escapeMode u.path .path

/-- `URL.EscapedFragment` of net/url. -/
def escapedFragmentURL (u : GoURL) : List Char :=
  if u.rawFragment ≠ [] ∧ validEnc u.rawFragment .fragment ∧
     unescapeMode u.rawFragment .fragment = some u.fragment then u.rawFragment
  else escapeMode u.fragment .fragment

/-- `URL.String` of net/url on the modelled fragment: scheme, opaque part or
escaped path (with the `./` guard for a schemeless path whose first segment
contains a colon; the `//` authority marker never arises because the
modelled URLs have no host and no user and the parser marks a scheme-plus-
rooted-path URL as host-omitting), query and fragment. -/
def goURLString (u : GoURL) : List Char :=
  let base := if u.scheme ≠ [] then u.scheme ++ [':'] else []
  let core :=
    if u.opq ≠ [] then base ++ u.opq
    else
      let p := escapedPathURL u
      let base2 :=
        if base.isEmpty ∧ (cutAt '/' p).1.contains ':' then
          base ++ ['.', '/']
        else base
      base2 ++ p
  let withQ :=
    if u.forceQuery ∨ u.rawQuery ≠ [] then core ++ ['?'] ++ u.rawQuery
    else core
  if u.fragment ≠ [] then withQ ++ ['#'] ++ escapedFragmentURL u
  else withQ

/-- `url.Parse(s)` followed by `.String()`, the transformation the source
applies to file names before transmission (`none` models a parse error). -/
def goUrlParseToString (s : String) : Option String :=
  match goParse s.data with
  | none => none
  | some u => some (String.mk (goURLString u))

/-- `url.QueryUnescape` of net/url, used by `readHeaderFileInfo` to decode
the `X-Bz-File-Name` response header. -/
def goQueryUnescape (s : String) : Option String :=
  match unescapeMode s.data .queryComp with
  | none => none
  | some l => some (String.mk l)

/-! ### Upload requests

`Upload.UploadFile` (src/unnamed/part_002 lines 35-85) and `B2.UploadFile`
(src/b2.go lines 222-271) build identical request headers; the part_003
draft additionally lazily acquires the lease from a supplied bucket id.
Request headers are modelled as the ordered list of `Header.Add` calls.
Go's `http.Header` canonicalises names on both `Add` and lookup and every
name below is already canonical, so plain string equality models lookup.
Go iterates the custom-info map in unspecified order; the theorems below
only state occurrence counts and value sets, which do not depend on it. -/

abbrev Headers := List (String × String)

/-- The number of times a header name was added to the request. -/
def countHeader (req : Headers) (name : String) : Nat :=
  (req.filter (fun p => p.1 = name)).length

/-- The values added under one header name, in add order. -/
def headerVals (req : Headers) (name : String) : List String :=
  (req.filter (fun p => p.1 = name)).map (fun p => p.2)

/-- The optional `X-Bz-Info-src_last_modified_millis` header
(src/unnamed/part_002 lines 62-65, src/b2.go lines 249-251): when `mtime`
is non-nil, `fmt.Sprint(mtime.UnixNano() / 1000000)` — `mtime` is modelled
by its `UnixNano()` value (defined by Go for times representable in an
int64 nanosecond count) and `/` is Go's int64 division, truncation toward
zero. -/
def mtimeHeader (mtime : Option Int) : Headers :=
  match mtime with
  | some n =>
    [("X-Bz-Info-src_last_modified_millis", toString (Int.tdiv n 1000000))]
  | none => []

/-- The custom-info headers (src/unnamed/part_002 lines 67-71): one
`X-Bz-Info-<key>` header per map entry when the map is non-nil. -/
def infoHeaders (info : Option (List (String × String))) : Headers :=
  match info with
  | none => []
  | some entries => entries.map (fun p => ("X-Bz-Info-" ++ p.1, p.2))

/-- `Upload.UploadFile` up to the network call (src/unnamed/part_002 lines
35-71; the header-building part of `B2.UploadFile`, src/b2.go lines
227-257, is identical): default the content type to the auto-detect
sentinel when empty, run the file name through
`url.Parse(fileName)`/`.String()` (`none` models a parse error, which
returns before any request is sent), then add the headers in source
order. -/
def uploadFileReq (authToken fileName contentType sha1 : String)
    (mtime : Option Int) (info : Option (List (String × String))) :
    Option Headers :=
  let ct := if contentType = "" then "b2/x-auto" else contentType
  match goUrlParseToString fileName with
  | none => none
  | some encName =>
    some ([("Authorization", authToken), ("X-Bz-File-Name", encName),
           ("Content-Type", ct), ("X-Bz-Content-Sha1", sha1)]
      ++ mtimeHeader mtime ++ infoHeaders info)

/-- `B2.UploadFile` (src/b2.go lines 222-271): nil-lease check, request
construction, then the exchange through `readResp`.  The second component
collects the requests actually sent (their header lists), so that "no
request is sent" is visible in the result. -/
def b2UploadFile (b2upload : Option Upload)
    (fileName contentType sha1 : String) (mtime : Option Int)
    (info : Option (List (String × String))) (statusCode : Nat)
    (readAll : Option String) (dec : String → Option FileInfo)
    (decErr : String → Option B2Err) :
    Except GoError FileInfo × List Headers :=
  match b2upload with
  | none =>
    (.error (.config "Must run GetUploadURL and set B2.Upload to upload"),
     [])
  | some u =>
    match uploadFileReq u.authToken fileName contentType sha1 mtime info with
    | none => (.error .urlParseErr, [])
    | some req =>
      (readResp FileInfo statusCode readAll dec decErr, [req])

/-- The part_003 draft does not percent-encode the file name at all
(src/unnamed/part_003 lines 265-268): the raw name goes into the header. -/
def uploadFileReqDraftC (authToken fileName contentType sha1 : String)
    (mtime : Option Int) (info : Option (List (String × String))) :
    Headers :=
  let ct := if contentType = "" then "b2/x-auto" else contentType
  [("Authorization", authToken), ("X-Bz-File-Name", fileName),
   ("Content-Type", ct), ("X-Bz-Content-Sha1", sha1)]
    ++ mtimeHeader mtime ++ infoHeaders info

/-- `B2.UploadFile` of the part_003 draft (src/unnamed/part_003 lines
243-304): with no cached lease and an empty bucket id it fails with the
configuration error; with no cached lease but a bucket id it first issues a
`GetUploadURL` request (its outcome is the `leaseResult` parameter); then
the upload request is sent.  The second component lists the issued
requests: `none` tags the lease request, `some hdrs` an upload request. -/
def b2UploadFileDraftC (b2upload : Option Upload) (bucketID : String)
    (fileName contentType sha1 : String) (mtime : Option Int)
    (info : Option (List (String × String)))
    (leaseResult : Except GoError Upload)
    (sendResult : Headers → Except GoError FileInfo) :
    Except GoError FileInfo × List (Option Headers) :=
  match b2upload with
  | some u =>
    let req := uploadFileReqDraftC u.authToken fileName contentType sha1
      mtime info
    (sendResult req, [some req])
  | none =>
    if bucketID = "" then
      (.error (.config
        "Must run GetUploadURL and set B2.Upload, or provide bucket id to upload"),
       [])
    else
      match leaseResult with
      | .error e => (.error e, [none])
      | .ok u =>
        let req := uploadFileReqDraftC u.authToken fileName contentType sha1
          mtime info
        (sendResult req, [none, some req])

/-- C4: in both drafts of the session-level upload, a call with no cached
lease (and, in the part_003 draft, no bucket id) returns the local
configuration error and sends no network request at all. -/
theorem c4_upload_config_error (fileName contentType sha1 : String)
    (mtime : Option Int) (info : Option (List (String × String)))
    (statusCode : Nat) (readAll : Option String)
    (dec : String → Option FileInfo) (decErr : String → Option B2Err)
    (leaseResult : Except GoError Upload)
    (sendResult : Headers → Except GoError FileInfo) :
    b2UploadFile none fileName contentType sha1 mtime info statusCode
      readAll dec decErr =
      (.error (.config "Must run GetUploadURL and set B2.Upload to upload"),
       []) ∧
    b2UploadFileDraftC none "" fileName contentType sha1 mtime info
      leaseResult sendResult =
      (.error (.config
        "Must run GetUploadURL and set B2.Upload, or provide bucket id to upload"),
       []) := by
  exact ⟨rfl, rfl⟩

/-- The spec-side wire-format percent-encoding of a file name: encode the
name's bytes, percent-escaping every byte that is not an RFC 3986
unreserved character or the path separator `/` (B2 file names keep `/`
verbatim), with upper-case hex. -/
def specWireEncode (s : String) : String :=
  String.mk ((s.data.map (fun c =>
    if isAsciiAlphaNum c ∨ c = '-' ∨ c = '.' ∨ c = '_' ∨ c = '~' ∨ c = '/'
    then [c]
    else ['%', hexDigitUpper (c.toNat / 16), hexDigitUpper (c.toNat % 16)])
    ).flatten)

/-- C5, at the failing input `fileName = "a?b"`: the code transmits the raw
(decoded) name `"a?b"` in `X-Bz-File-Name` — `url.Parse` splits at the `?`
and `String()` reassembles the original string — while the wire format
requires the percent-encoded form `"a%3Fb"`. -/
theorem c5_raw_name_sent :
    uploadFileReq "tok" "a?b" "" "" none none =
      some [("Authorization", "tok"), ("X-Bz-File-Name", "a?b"),
            ("Content-Type", "b2/x-auto"), ("X-Bz-Content-Sha1", "")] ∧
    specWireEncode "a?b" = "a%3Fb" ∧ ("a?b" : String) ≠ "a%3Fb" ∧
    uploadFileReqDraftC "tok" "a?b" "" "" none none =
      [("Authorization", "tok"), ("X-Bz-File-Name", "a?b"),
       ("Content-Type", "b2/x-auto"), ("X-Bz-Content-Sha1", "")] := by
  refine ⟨rfl, rfl, by decide, rfl⟩

/-- Appending to a fixed string on the left is injective. -/
theorem string_append_left_inj (a b c : String) : a ++ b = a ++ c ↔ b = c := by
  constructor
  · intro h
    have h' := congrArg String.data h
    rw [String.data_append, String.data_append] at h'
    exact String.ext (List.append_cancel_left h')
  · intro h
    rw [h]

/-- No custom-info header name is the `Content-Type` header name. -/
theorem info_name_ne_content_type (k : String) :
    "X-Bz-Info-" ++ k ≠ "Content-Type" := by
  intro h
  have h' := congrArg String.data h
  rw [String.data_append] at h'
  have hx : ("X-Bz-Info-".data ++ k.data).head? = some 'X' := rfl
  rw [h'] at hx
  exact absurd hx (by decide)

/-- A custom-info header name collides with the reserved mtime header name
exactly when the entry's key is the reserved key. -/
theorem info_name_eq_reserved_iff (k : String) :
    "X-Bz-Info-" ++ k = "X-Bz-Info-src_last_modified_millis" ↔
      k = "src_last_modified_millis" := by
  constructor
  · intro h
    have h2 : "X-Bz-Info-" ++ k = "X-Bz-Info-" ++ "src_last_modified_millis" := by
      rw [h]; decide
    exact (string_append_left_inj "X-Bz-Info-" k "src_last_modified_millis").mp h2
  · intro h
    rw [h]; decide

/-- Unfolding `headerVals` over a cons cell. -/
theorem headerVals_cons (n v : String) (rest : Headers) (name : String) :
    headerVals ((n, v) :: rest) name =
      if n = name then v :: headerVals rest name else headerVals rest name := by
  by_cases h : n = name <;> simp [headerVals, List.filter_cons, h]

/-- `headerVals` distributes over request concatenation. -/
theorem headerVals_append (a b : Headers) (name : String) :
    headerVals (a ++ b) name = headerVals a name ++ headerVals b name := by
  simp [headerVals, List.filter_append]

/-- The header count is the length of the value list. -/
theorem countHeader_eq_length (req : Headers) (name : String) :
    countHeader req name = (headerVals req name).length := by
  simp [countHeader, headerVals]

/-- The custom-info headers never contribute a `Content-Type` value. -/
theorem headerVals_infoHeaders_ct (info : Option (List (String × String))) :
    headerVals (infoHeaders info) "Content-Type" = [] := by
  cases info with
  | none => rfl
  | some entries =>
    induction entries with
    | nil => rfl
    | cons p t ih =>
      show headerVals (("X-Bz-Info-" ++ p.1, p.2) :: infoHeaders (some t))
        "Content-Type" = []
      rw [headerVals_cons, if_neg (info_name_ne_content_type p.1)]
      exact ih

/-- When no custom-info key is the reserved mtime key, the custom-info
headers never contribute a value under the reserved header name. -/
theorem headerVals_infoHeaders_reserved (info : Option (List (String × String)))
    (hres : ∀ p ∈ info.getD [], p.1 ≠ "src_last_modified_millis") :
    headerVals (infoHeaders info) "X-Bz-Info-src_last_modified_millis" = [] := by
  cases info with
  | none => rfl
  | some entries =>
    simp only [Option.getD_some] at hres
    induction entries with
    | nil => rfl
    | cons p t ih =>
      show headerVals (("X-Bz-Info-" ++ p.1, p.2) :: infoHeaders (some t))
        "X-Bz-Info-src_last_modified_millis" = []
      rw [headerVals_cons,
          if_neg (fun h => hres p (List.mem_cons_self p t)
            ((info_name_eq_reserved_iff p.1).mp h))]
      exact ih (fun q hq => hres q (List.mem_cons_of_mem p hq))

/-- C7 counterexample: with mtime present (`UnixNano = 0`) and a
custom-info map that itself contains the reserved key, the request carries
two `X-Bz-Info-src_last_modified_millis` headers, not exactly one — and
with mtime absent but the same custom-info map, the header is still sent. -/
theorem c7_counterexample :
    headerVals ((uploadFileReq "tok" "a" "" "" (some 0)
        (some [("src_last_modified_millis", "7")])).getD [])
      "X-Bz-Info-src_last_modified_millis" = ["0", "7"] ∧
    countHeader ((uploadFileReq "tok" "a" "" "" (some 0)
        (some [("src_last_modified_millis", "7")])).getD [])
      "X-Bz-Info-src_last_modified_millis" ≠ 1 ∧
    headerVals ((uploadFileReq "tok" "a" "" "" none
        (some [("src_last_modified_millis", "7")])).getD [])
      "X-Bz-Info-src_last_modified_millis" = ["7"] := by
  refine ⟨rfl, by decide, rfl⟩

/-- C7 as amended: for every upload call whose custom-info map does not use
the reserved key `src_last_modified_millis`, a present mtime yields exactly
one `X-Bz-Info-src_last_modified_millis` header whose value is the mtime's
Unix-epoch nanoseconds divided by 10^6 with Go's truncating int64 division
(its Unix-epoch timestamp in milliseconds; truncation and floor agree for
times at or after the epoch), and an absent mtime yields no such header. -/
theorem c7_mtime_header (authToken fileName contentType sha1 : String)
    (mtime : Option Int) (info : Option (List (String × String)))
    (req : Headers)
    (hreq : uploadFileReq authToken fileName contentType sha1 mtime info =
      some req)
    (hres : ∀ p ∈ info.getD [], p.1 ≠ "src_last_modified_millis") :
    (∀ n, mtime = some n →
      countHeader req "X-Bz-Info-src_last_modified_millis" = 1 ∧
      headerVals req "X-Bz-Info-src_last_modified_millis" =
        [toString (Int.tdiv n 1000000)]) ∧
    (mtime = none →
      countHeader req "X-Bz-Info-src_last_modified_millis" = 0) := by
  unfold uploadFileReq at hreq
  cases hp : goUrlParseToString fileName with
  | none => rw [hp] at hreq; exact absurd hreq (by simp)
  | some enc =>
    rw [hp] at hreq
    have hre : req =
        [("Authorization", authToken), ("X-Bz-File-Name", enc),
         ("Content-Type", if contentType = "" then "b2/x-auto" else contentType),
         ("X-Bz-Content-Sha1", sha1)]
          ++ mtimeHeader mtime ++ infoHeaders info := by
      exact (Option.some_inj.mp hreq).symm
    subst hre
    have hinfo := headerVals_infoHeaders_reserved info hres
    constructor
    · intro n hn
      subst hn
      rw [countHeader_eq_length, headerVals_append, headerVals_append, hinfo]
      constructor
      · rfl
      · rfl
    · intro hn
      subst hn
      rw [countHeader_eq_length, headerVals_append, headerVals_append, hinfo]
      rfl

/-- Witness for C7 (amended) at concrete inputs: mtime `UnixNano = 1500000`
gives exactly the header value `"1"`; absent mtime gives no header. -/
theorem c7_mtime_header_witness :
    countHeader ((uploadFileReq "tok" "a" "" "" (some 1500000)
        (some [("color", "red")])).getD [])
      "X-Bz-Info-src_last_modified_millis" = 1 ∧
    headerVals ((uploadFileReq "tok" "a" "" "" (some 1500000)
        (some [("color", "red")])).getD [])
      "X-Bz-Info-src_last_modified_millis" = ["1"] ∧
    countHeader ((uploadFileReq "tok" "a" "" "" none
        (some [("color", "red")])).getD [])
      "X-Bz-Info-src_last_modified_millis" = 0 := by
  refine ⟨?_, ?_, ?_⟩
  · exact ((c7_mtime_header "tok" "a" "" "" (some 1500000)
      (some [("color", "red")])
      ([("Authorization", "tok"), ("X-Bz-File-Name", "a"),
        ("Content-Type", "b2/x-auto"), ("X-Bz-Content-Sha1", "")]
        ++ mtimeHeader (some 1500000) ++ infoHeaders (some [("color", "red")]))
      rfl (by decide)).1 1500000 rfl).1
  · exact ((c7_mtime_header "tok" "a" "" "" (some 1500000)
      (some [("color", "red")])
      ([("Authorization", "tok"), ("X-Bz-File-Name", "a"),
        ("Content-Type", "b2/x-auto"), ("X-Bz-Content-Sha1", "")]
        ++ mtimeHeader (some 1500000) ++ infoHeaders (some [("color", "red")]))
      rfl (by decide)).1 1500000 rfl).2
  · exact (c7_mtime_header "tok" "a" "" "" none
      (some [("color", "red")])
      ([("Authorization", "tok"), ("X-Bz-File-Name", "a"),
        ("Content-Type", "b2/x-auto"), ("X-Bz-Content-Sha1", "")]
        ++ mtimeHeader none ++ infoHeaders (some [("color", "red")]))
      rfl (by decide)).2 rfl

/-- C8: for every upload call that reaches transmission, an empty
`contentType` sends the auto-detect sentinel `b2/x-auto` as the single
`Content-Type` header, and a non-empty `contentType` is sent unchanged. -/
theorem c8_content_type (authToken fileName contentType sha1 : String)
    (mtime : Option Int) (info : Option (List (String × String)))
    (req : Headers)
    (hreq : uploadFileReq authToken fileName contentType sha1 mtime info =
      some req) :
    headerVals req "Content-Type" =
      [if contentType = "" then "b2/x-auto" else contentType] := by
  unfold uploadFileReq at hreq
  cases hp : goUrlParseToString fileName with
  | none => rw [hp] at hreq; exact absurd hreq (by simp)
  | some enc =>
    rw [hp] at hreq
    have hre : req =
        [("Authorization", authToken), ("X-Bz-File-Name", enc),
         ("Content-Type", if contentType = "" then "b2/x-auto" else contentType),
         ("X-Bz-Content-Sha1", sha1)]
          ++ mtimeHeader mtime ++ infoHeaders info := by
      exact (Option.some_inj.mp hreq).symm
    subst hre
    rw [headerVals_append, headerVals_append, headerVals_infoHeaders_ct]
    cases mtime with
    | none => rfl
    | some n => rfl

/-- Witness for C8 at concrete inputs: empty content type becomes the
sentinel, a non-empty one is transmitted verbatim. -/
theorem c8_content_type_witness :
    headerVals ((uploadFileReq "tok" "a" "" "" none none).getD [])
      "Content-Type" = ["b2/x-auto"] ∧
    headerVals ((uploadFileReq "tok" "a" "text/plain" "" none none).getD [])
      "Content-Type" = ["text/plain"] := by
  constructor
  · exact c8_content_type "tok" "a" "" "" none none
      ([("Authorization", "tok"), ("X-Bz-File-Name", "a"),
        ("Content-Type", "b2/x-auto"), ("X-Bz-Content-Sha1", "")]
        ++ mtimeHeader none ++ infoHeaders none) rfl
  · exact c8_content_type "tok" "a" "text/plain" "" none none
      ([("Authorization", "tok"), ("X-Bz-File-Name", "a"),
        ("Content-Type", "text/plain"), ("X-Bz-Content-Sha1", "")]
        ++ mtimeHeader none ++ infoHeaders none) rfl

/-! ### Download and header-metadata reconstruction (src/unnamed/part_001)

Response headers are modelled as Go's `http.Header`, a map from canonical
header name to its value slice, as an association list with distinct keys.
Go canonicalises names on store and lookup; every name used below is
already canonical, so exact string lookup models `Header.Get`.  Go map
iteration order is unspecified; the properties proved below (whether any
`X-Bz-Info-` key exists) do not depend on the order. -/

abbrev Header := List (String × List String)

/-- `http.Header.Get`: the first value stored under the (canonical) key, or
the empty string. -/
def headerGet (h : Header) (key : String) : String :=
  match h.lookup key with
  | some (v :: _) => v
  | some [] => ""
  | none => ""

/-- `strconv.ParseInt(s, 10, 64)` digit scan with accumulator. -/
def digitsValAux (acc : Nat) : List Char → Option Nat
  | [] => some acc
  | c :: rest =>
    if isAsciiDigit c then digitsValAux (acc * 10 + (c.toNat - 48)) rest
    else none

/-- `strconv.ParseInt(s, 10, 64)`: optional sign, non-empty digit run,
64-bit range check (out-of-range input is an error). -/
def goParseInt64 (s : String) : Option Int :=
  match s.data with
  | [] => none
  | '+' :: rest =>
    match rest, digitsValAux 0 rest with
    | [], _ => none
    | _, none => none
    | _, some v =>
      if v ≤ 9223372036854775807 then some (Int.ofNat v) else none
  | '-' :: rest =>
    match rest, digitsValAux 0 rest with
    | [], _ => none
    | _, none => none
    | _, some v =>
      if v ≤ 9223372036854775808 then some (-(Int.ofNat v)) else none
  | l =>
    match digitsValAux 0 l with
    | none => none
    | some v =>
      if v ≤ 9223372036854775807 then some (Int.ofNat v) else none

/-- Character-level prefix test. -/
def listIsPre : List Char → List Char → Bool
  | [], _ => true
  | _ :: _, [] => false
  | a :: as, b :: bs => a == b && listIsPre as bs

/-- `strings.HasPrefix(s, pre)` (byte level in Go, character level here;
identical on the ASCII header names involved). -/
def strStartsWith (s pre : String) : Bool :=
  listIsPre pre.data s.data

/-- Go map assignment `m[k] = v`: replace the value under `k` or append the
new entry. -/
def mapAssign : List (String × String) → String → String → List (String × String)
  | [], k, v => [(k, v)]
  | (k0, v0) :: rest, k, v =>
    if k0 = k then (k0, v) :: rest
    else (k0, v0) :: mapAssign rest k v

/-- The custom-info loop of `readHeaderFileInfo` (src/unnamed/part_001
lines 158-165): skip names without the `X-Bz-Info-` prefix; for a match,
`info.Info[name[10:]] = val[0]` — an assignment to a nil map (`m = none`)
is a runtime panic, as is `val[0]` on an empty slice; the result `none`
models the panic, `some m` the final map. -/
def infoLoop (m : Option (List (String × String))) :
    Header → Option (Option (List (String × String)))
  | [] => some m
  | (k, vs) :: rest =>
    if strStartsWith k "X-Bz-Info-" then
      match m with
      | none => none
      | some entries =>
        match vs with
        | [] => none
        | v :: _ =>
          infoLoop (some (mapAssign entries (k.drop "X-Bz-Info-".length) v))
            rest
    else infoLoop m rest

/-- The outcome of a function returning `(*FileInfo, error)` that can also
panic. -/
inductive FIResult where
  | ok (fi : FileInfo)
  | err (e : GoError)
  | panicked
deriving Repr, DecidableEq

/-- `B2.readHeaderFileInfo` (src/unnamed/part_001 lines 142-168): rebuilds
a `FileInfo` from download response headers — content type, file id,
`Content-Length` through `strconv.ParseInt` (failure is fatal),
`X-Bz-File-Name` through `url.QueryUnescape` (failure is fatal), sha1, and
the custom-info loop over the `X-Bz-Info-` headers.  The `Info` map of the
freshly allocated `&FileInfo{conn: b}` is nil and is never initialised, so
the loop's first assignment panics. -/
def readHeaderFileInfo (accountID : String) (header : Header) : FIResult :=
  match goParseInt64 (headerGet header "Content-Length") with
  | none => .err .parseIntErr
  | some len =>
    match goQueryUnescape (headerGet header "X-Bz-File-Name") with
    | none => .err .unescapeErr
    | some nm =>
      match infoLoop none header with
      | none => .panicked
      | some m =>
        .ok { accountID := accountID,
              id := headerGet header "X-Bz-File-Id",
              name := nm, bucketID := "", length := len,
              sha1 := headerGet header "X-Bz-Content-Sha1",
              fType := headerGet header "Content-Type", info := m }

/-- The body stream of a download response: fully readable, or failing
after some earlier chunk was already copied. -/
inductive BodyRead where
  | ok (data : String)
  | fail (got : String)
deriving Repr, DecidableEq

/-- A download HTTP response. -/
structure DownloadResp where
  statusCode : Nat
  header : Header
  body : BodyRead

/-- The shared tail of `B2.DownloadFileByID` and `B2.DownloadFileByName`
(src/unnamed/part_001 lines 296-313 and 329-346, identical): on a
non-success status, return `readResp(resp, nil)` without touching the sink
(`json.Unmarshal` into a nil output always fails, hence the constantly
failing decode oracle); on success, `io.Copy` the body into the sink (a
mid-stream failure still appends the chunk already read), then rebuild the
metadata from the headers.  Returns the new sink contents and the
outcome. -/
def downloadExchange (accountID : String) (resp : DownloadResp)
    (decErr : String → Option B2Err) (sink : String) : String × FIResult :=
  if resp.statusCode ≠ GoodStatus then
    (sink,
     match readResp Unit resp.statusCode
         (match resp.body with | .ok s => some s | .fail _ => none)
         (fun _ => none) decErr with
     | .error e => .err e
     | .ok _ => .err .decodeFail)
  else
    match resp.body with
    | .fail got => (sink ++ got, .err .transport)
    | .ok s =>
      match readHeaderFileInfo accountID resp.header with
      | .ok fi => (sink ++ s, .ok fi)
      | .err e => (sink ++ s, .err e)
      | .panicked => (sink ++ s, .panicked)

/-- `B2.DownloadFileByID` (src/unnamed/part_001 lines 284-313): the request
URL is built from the file id (that construction cannot fail), then the
shared exchange runs. -/
def downloadFileByID (accountID : String) (resp : DownloadResp)
    (decErr : String → Option B2Err) (sink : String) : String × FIResult :=
  downloadExchange accountID resp decErr sink

/-- `B2.DownloadFileByName` (src/unnamed/part_001 lines 316-346): the file
name is first passed through `url.Parse`/`String()` into the request path
(a parse failure returns before any request), then the shared exchange
runs. -/
def downloadFileByName (accountID : String) (fileName : String)
    (resp : DownloadResp) (decErr : String → Option B2Err) (sink : String) :
    String × FIResult :=
  match goUrlParseToString fileName with
  | none => (sink, .err .urlParseErr)
  | some _ => downloadExchange accountID resp decErr sink

/-- Any `X-Bz-Info-`-prefixed header makes the custom-info loop, started on
the nil map, panic. -/
theorem infoLoop_none_of_any (header : Header)
    (h : header.any (fun p => strStartsWith p.1 "X-Bz-Info-") = true) :
    infoLoop none header = none := by
  induction header with
  | nil => simp at h
  | cons p rest ih =>
    obtain ⟨k, vs⟩ := p
    by_cases hp : strStartsWith k "X-Bz-Info-"
    · simp [infoLoop, hp]
    · simp only [List.any_cons, Bool.or_eq_true] at h
      rcases h with h1 | h2
      · exact absurd h1 (by simpa using hp)
      · simp only [infoLoop, hp, if_false, Bool.false_eq_true]
        exact ih h2

/-- C3: for every download (by id or by name) whose response status is not
the success code, the sink is left unchanged — zero bytes are copied — and
the API error decoded from the response body is returned instead of a
`FileInfo`. -/
theorem c3_download_nonsuccess (accountID fileName : String)
    (resp : DownloadResp) (decErr : String → Option B2Err) (sink s : String)
    (e : B2Err) (hst : resp.statusCode ≠ 200) (hbody : resp.body = .ok s)
    (hdec : decErr s = some e) :
    downloadFileByID accountID resp decErr sink =
      (sink, .err (.apiErr e)) ∧
    (∀ enc, goUrlParseToString fileName = some enc →
      downloadFileByName accountID fileName resp decErr sink =
        (sink, .err (.apiErr e))) := by
  have hcore : downloadExchange accountID resp decErr sink =
      (sink, .err (.apiErr e)) := by
    rw [downloadExchange, if_pos (by simpa [GoodStatus] using hst)]
    rw [hbody]
    simp [readResp, GoodStatus, hst, hdec]
  refine ⟨hcore, fun enc henc => ?_⟩
  rw [downloadFileByName, henc]
  exact hcore

/-- Witness for C3 at a concrete 404 response: the sink stays `"S"` and the
decoded API error comes back, for both download flavours. -/
theorem c3_download_nonsuccess_witness :
    downloadFileByID "acct" ⟨404, [], .ok "nope"⟩
      (fun _ => some ⟨"not_found", "no such file", 404⟩) "S" =
      ("S", .err (.apiErr ⟨"not_found", "no such file", 404⟩)) ∧
    downloadFileByName "acct" "a" ⟨404, [], .ok "nope"⟩
      (fun _ => some ⟨"not_found", "no such file", 404⟩) "S" =
      ("S", .err (.apiErr ⟨"not_found", "no such file", 404⟩)) := by
  constructor
  · exact (c3_download_nonsuccess "acct" "a" ⟨404, [], .ok "nope"⟩
      (fun _ => some ⟨"not_found", "no such file", 404⟩) "S" "nope"
      ⟨"not_found", "no such file", 404⟩ (by decide) rfl rfl).1
  · exact (c3_download_nonsuccess "acct" "a" ⟨404, [], .ok "nope"⟩
      (fun _ => some ⟨"not_found", "no such file", 404⟩) "S" "nope"
      ⟨"not_found", "no such file", 404⟩ (by decide) rfl rfl).2 "a" rfl

/-- C6 counterexample: a response that carries an `X-Bz-Info-` header but
whose `Content-Length` does not parse makes `readHeaderFileInfo` return the
decode error — it does not panic, so not every download response with an
`X-Bz-Info-` header aborts with the nil-map panic. -/
theorem c6_counterexample :
    readHeaderFileInfo "acct"
      [("Content-Length", ["xyz"]), ("X-Bz-Info-Color", ["red"])] =
      .err .parseIntErr ∧
    ([("Content-Length", ["xyz"]), ("X-Bz-Info-Color", ["red"])] : Header).any
      (fun p => strStartsWith p.1 "X-Bz-Info-") = true ∧
    FIResult.err .parseIntErr ≠ .panicked := by
  refine ⟨rfl, rfl, by decide⟩

/-- C6 as amended: for every download response carrying at least one
`X-Bz-Info-`-prefixed header whose earlier header fields decode
(`Content-Length` parses as an integer and `X-Bz-File-Name`
percent-decodes), the metadata reconstruction writes the stripped key into
the `FileInfo`'s never-initialised nil `Info` map and aborts with a runtime
panic instead of returning the `FileInfo`. -/
theorem c6_nil_map_panic (accountID : String) (header : Header) (n : Int)
    (nm : String)
    (hcl : goParseInt64 (headerGet header "Content-Length") = some n)
    (hnm : goQueryUnescape (headerGet header "X-Bz-File-Name") = some nm)
    (hinfo : header.any (fun p => strStartsWith p.1 "X-Bz-Info-") = true) :
    readHeaderFileInfo accountID header = .panicked := by
  rw [readHeaderFileInfo, hcl, hnm, infoLoop_none_of_any header hinfo]

/-- Witness for C6 (amended) at a concrete response whose headers decode
and which carries one custom-info header. -/
theorem c6_nil_map_panic_witness :
    readHeaderFileInfo "acct"
      [("Content-Length", ["5"]), ("X-Bz-File-Name", ["a"]),
       ("X-Bz-Info-Color", ["red"])] = .panicked :=
  c6_nil_map_panic "acct"
    [("Content-Length", ["5"]), ("X-Bz-File-Name", ["a"]),
     ("X-Bz-Info-Color", ["red"])] 5 "a" rfl rfl rfl

/-- C10: for every download (by id or by name) with success status whose
header metadata fails to decode, the call returns an error, yet the full
response body has already been copied into the sink — the sink is not left
unchanged (when the body is non-empty) on this error path. -/
theorem c10_body_written_before_header_failure (accountID fileName : String)
    (resp : DownloadResp) (decErr : String → Option B2Err) (sink s : String)
    (e : GoError) (hst : resp.statusCode = 200) (hbody : resp.body = .ok s)
    (hhdr : readHeaderFileInfo accountID resp.header = .err e) :
    downloadFileByID accountID resp decErr sink = (sink ++ s, .err e) ∧
    (∀ enc, goUrlParseToString fileName = some enc →
      downloadFileByName accountID fileName resp decErr sink =
        (sink ++ s, .err e)) ∧
    (s ≠ "" → sink ++ s ≠ sink) := by
  have hcore : downloadExchange accountID resp decErr sink =
      (sink ++ s, .err e) := by
    rw [downloadExchange, if_neg (by simp [GoodStatus, hst])]
    rw [hbody]
    simp [hhdr]
  refine ⟨hcore, fun enc henc => ?_, fun hs heq => ?_⟩
  · rw [downloadFileByName, henc]
    exact hcore
  · apply hs
    have hlen := congrArg String.length heq
    rw [String.length_append] at hlen
    have hz : s.length = 0 := by omega
    have hd : s.data.length = 0 := hz
    exact String.ext (List.length_eq_zero.mp hd)

/-- Witness for C10 at a concrete 200 response with unparsable
`Content-Length`: the body `"BODY"` lands in the sink and the decode error
is returned, for both download flavours, and the sink did change. -/
theorem c10_body_written_before_header_failure_witness :
    downloadFileByID "acct" ⟨200, [("Content-Length", ["xyz"])], .ok "BODY"⟩
      (fun _ => none) "S" = ("SBODY", .err .parseIntErr) ∧
    downloadFileByName "acct" "a" ⟨200, [("Content-Length", ["xyz"])], .ok "BODY"⟩
      (fun _ => none) "S" = ("SBODY", .err .parseIntErr) ∧
    ("S" ++ "BODY" : String) ≠ "S" := by
  refine ⟨?_, ?_, ?_⟩
  · exact (c10_body_written_before_header_failure "acct" "a"
      ⟨200, [("Content-Length", ["xyz"])], .ok "BODY"⟩ (fun _ => none)
      "S" "BODY" .parseIntErr rfl rfl rfl).1
  · exact (c10_body_written_before_header_failure "acct" "a"
      ⟨200, [("Content-Length", ["xyz"])], .ok "BODY"⟩ (fun _ => none)
      "S" "BODY" .parseIntErr rfl rfl rfl).2.1 "a" rfl
  · exact (c10_body_written_before_header_failure "acct" "a"
      ⟨200, [("Content-Length", ["xyz"])], .ok "BODY"⟩ (fun _ => none)
      "S" "BODY" .parseIntErr rfl rfl rfl).2.2 (by decide)

end GoBlaze
